import Mathlib

/-!
Verification development for the vscode-slim-lint extension.

This file gives a shallow embedding of the linting engine in `src/linter.ts`
(class `Linter`): the slim-lint output parser driven by the module-level
global-flag regular expression

  SLIM_LINT_OUTPUT_REGEX = /.+?:(\d+) \[(W|E)] (\w+): (.+)/g

together with `parseOutput`, `createDiagnostic`, `updateDiagnostics`,
`run`, `clear`, and the asynchronous `lint` cycle (snapshot, subprocess
completion, race check, store replacement).

Strings are modelled as `List Char`.  JavaScript numbers used for line
arithmetic are modelled as `Int` (`Math.max(parseInt(n) - 1, 0)` becomes
`max (n - 1) 0` over `Int`).  The stateful global regex is modelled by an
explicit `lastIndex : Nat` threaded through `execFrom`, mirroring
`RegExp.prototype.exec` on a `g`-flagged regex: a successful call resumes
from `lastIndex` and sets it to the end of the match; an unsuccessful call
returns none and resets `lastIndex` to `0`.

The engine model assumes a valid configuration (`getConfiguration` does not
throw); subprocess completion is modelled by an explicit outcome (captured
stdout/stderr, launch failure, or timeout), matching `executeSlimLint`,
which is invoked with `reject: false` and on launch failure or timeout
yields empty stdout rather than aborting the cycle.
-/

set_option autoImplicit false

namespace SlimLint

/-- JavaScript `.` in a non-dotall regex: any character except a line
terminator (`\n`, `\r`, U+2028, U+2029). -/
def isDotChar (c : Char) : Bool :=
  !(c = '\n' || c = '\r' || c = '\u2028' || c = '\u2029')

/-- JavaScript `\w`: ASCII letters, digits, and underscore. -/
def isWordChar (c : Char) : Bool :=
  c.isAlpha || c.isDigit || c = '_'

/-- The four capture groups of one successful match of
`SLIM_LINT_OUTPUT_REGEX`: `(\d+)`, `(W|E)`, `(\w+)`, `(.+)`. -/
structure LintMatch where
  lineStr : List Char
  sev : Char
  ruleName : List Char
  message : List Char
deriving DecidableEq, Repr

/-- Matching of `(\d+) \[(W|E)] (\w+): (.+)` against the text following a
candidate `:`.  Each repetition is maximal-munch; this is equivalent to the
backtracking semantics because the character after each greedy group
(`' '`, `':'`, end of line) is never a member of the class of the group.
Returns the capture groups and the text after the match. -/
def afterColon (s : List Char) : Option (LintMatch × List Char) :=
  match s.takeWhile Char.isDigit, s.dropWhile Char.isDigit with
  | d :: ds, ' ' :: '[' :: sev :: ']' :: ' ' :: r4 =>
    if sev = 'W' ∨ sev = 'E' then
      match r4.takeWhile isWordChar, r4.dropWhile isWordChar with
      | w :: ws, ':' :: ' ' :: r6 =>
        match r6.takeWhile isDotChar, r6.dropWhile isDotChar with
        | c :: cs, r7 => some (⟨d :: ds, sev, w :: ws, c :: cs⟩, r7)
        | [], _ => none
      | _, _ => none
    else none
  | _, _ => none

/-- The lazy `.+?` after its first mandatory character: at each position,
first try to read `:` followed by the rest of the pattern; on failure
extend the lazy prefix by one more (non-line-terminator) character. -/
def lazyRest : List Char → Option (LintMatch × List Char)
  | [] => none
  | c :: rest =>
    match (if c = ':' then afterColon rest else none) with
    | some res => some res
    | none => if isDotChar c then lazyRest rest else none

/-- Attempt a match of the whole pattern anchored at the head of `s`:
`.+?` must consume at least one character. -/
def matchStartingAt (s : List Char) : Option (LintMatch × List Char) :=
  match s with
  | [] => none
  | c :: rest => if isDotChar c then lazyRest rest else none

/-- Leftmost match: try each start position left to right, as the regex
engine does when scanning from `lastIndex`.  Returns the capture groups and
the text after the match. -/
def findMatch : List Char → Option (LintMatch × List Char)
  | [] => none
  | c :: rest =>
    match matchStartingAt (c :: rest) with
    | some res => some res
    | none => findMatch rest

/-- One call of `SLIM_LINT_OUTPUT_REGEX.exec(output)`: scan from the current
`lastIndex`; on success also return the new `lastIndex` (the absolute
position just after the match). -/
def execFrom (s : List Char) (lastIndex : Nat) : Option (LintMatch × Nat) :=
  match findMatch (s.drop lastIndex) with
  | none => none
  | some (m, rest) => some (m, s.length - rest.length)

/-- The `while (match !== null)` loop of `parseOutput`, with explicit fuel
(each successful `exec` strictly advances `lastIndex`, so
`s.length + 1` steps always suffice).  Returns the collected matches and
the final `lastIndex` of the shared regex: `0` whenever the loop actually
terminated via an unsuccessful `exec`. -/
def parseLoopAux : Nat → List Char → Nat → List LintMatch × Nat
  | 0, _, lastIndex => ([], lastIndex)
  | fuel + 1, s, lastIndex =>
    match execFrom s lastIndex with
    | none => ([], 0)
    | some (m, j) =>
      let rest := parseLoopAux fuel s j
      (m :: rest.1, rest.2)

/-- Run the match loop of `parseOutput` starting from a given `lastIndex`
of the module-level regex; return the matches found and the final
`lastIndex` of the regex. -/
def parseMatchesFrom (s : List Char) (lastIndex : Nat) : List LintMatch × Nat :=
  parseLoopAux (s.length + 1) s lastIndex

/-- All matches of the regex over the output, in order of appearance,
starting from `lastIndex = 0`. -/
def parseMatches (s : List Char) : List LintMatch :=
  (parseMatchesFrom s 0).1

/-- `vscode.DiagnosticSeverity`, restricted to the two values this
extension produces. -/
inductive DiagnosticSeverity where
  | Warning
  | Error
deriving DecidableEq, Repr

/-- `vscode.Position`. JavaScript numbers are modelled as `Int`. -/
structure Position where
  line : Int
  character : Int
deriving DecidableEq, Repr

/-- `vscode.Range` (field `end` is named `endPos`, `end` being reserved). -/
structure Range where
  start : Position
  endPos : Position
deriving DecidableEq, Repr

/-- `vscode.Diagnostic` as constructed by `createDiagnostic`. -/
structure Diagnostic where
  range : Range
  message : List Char
  severity : DiagnosticSeverity
deriving DecidableEq, Repr

/-- The parts of `vscode.TextDocument` the linter reads: language id, URI
scheme and path, and the line-indexed text. -/
structure TextDocument where
  languageId : String
  uriScheme : String
  uriPath : String
  lines : List (List Char)
deriving DecidableEq, Repr

/-- `document.lineCount`. -/
def TextDocument.lineCount (doc : TextDocument) : Nat :=
  doc.lines.length

/-- `document.getText()`: the full text, lines joined by newlines. -/
def getText (doc : TextDocument) : List Char :=
  List.intercalate ['\n'] doc.lines

/-- `TextLine.firstNonWhitespaceCharacterIndex`: offset of the first
non-whitespace character, or the line length if the line is all
whitespace. -/
def firstNonWhitespaceCharacterIndex (line : List Char) : Nat :=
  (line.takeWhile (fun c =>
    c = ' ' || c = '\t' || c = '\n' || c = '\r' ||
    c = '\x0B' || c = '\x0C' || c = '\u00A0')).length

/-- `parseInt(lineStr, 10)` on the all-digit capture group `(\d+)`. -/
def digitsToNat (s : List Char) : Nat :=
  s.foldl (fun a c => 10 * a + (c.toNat - '0'.toNat)) 0

/-- `Math.max(parseInt(lineStr, 10) - 1, 0)` over JavaScript numbers. -/
def lineOf (m : LintMatch) : Int :=
  max ((digitsToNat m.lineStr : Int) - 1) 0

/-- The highlighted range: from the first non-whitespace character of the
line to the end of the line (`createDiagnostic`, using
`document.lineAt(line)`). -/
def diagRange (doc : TextDocument) (line : Int) : Range :=
  ⟨⟨line, (firstNonWhitespaceCharacterIndex (doc.lines.getD line.toNat []) : Int)⟩,
   ⟨line, ((doc.lines.getD line.toNat []).length : Int)⟩⟩

/-- `createDiagnostic(match, document)`: clamp the one-based line number,
drop the match if the line is out of range, map `W` to Warning and any
other severity character to Error, and build the message
`ruleName ++ ": " ++ message`. -/
def createDiagnostic (m : LintMatch) (doc : TextDocument) : Option Diagnostic :=
  if (doc.lineCount : Int) ≤ lineOf m then none
  else some
    { range := diagRange doc (lineOf m)
      message := m.ruleName ++ (':' :: ' ' :: m.message)
      severity := if m.sev = 'W' then DiagnosticSeverity.Warning
                  else DiagnosticSeverity.Error }

/-- `parseOutput(output, document)`: every regex match contributes a
diagnostic unless `createDiagnostic` rejects it. -/
def parseOutput (output : List Char) (doc : TextDocument) : List Diagnostic :=
  (parseMatches output).filterMap (fun m => createDiagnostic m doc)

/-- `collection.get(uri)` on the diagnostic collection, modelled as an
association list from document URI to stored diagnostics. -/
def storeGet : List (String × List Diagnostic) → String → Option (List Diagnostic)
  | [], _ => none
  | (k, v) :: rest, u => if k = u then some v else storeGet rest u

/-- `collection.delete(uri)`. -/
def storeDelete (u : String) :
    List (String × List Diagnostic) → List (String × List Diagnostic)
  | [] => []
  | (k, v) :: rest =>
    if k = u then storeDelete u rest else (k, v) :: storeDelete u rest

/-- `collection.set(uri, diagnostics)`: replace the entry for `uri`. -/
def storeSet (u : String) (v : List Diagnostic)
    (s : List (String × List Diagnostic)) : List (String × List Diagnostic) :=
  (u, v) :: storeDelete u s

/-- A subprocess in flight for a lint cycle: its identity, the document it
was started for, and the text snapshot `lint` took before dispatching it. -/
structure LintProc where
  pid : Nat
  docUri : String
  snapshot : List Char
deriving DecidableEq, Repr

/-- The observable state of a `Linter` instance (diagnostic collection,
surfaced error notifications, disposal flag) together with the set of
subprocesses currently running and a counter used to identify them. -/
structure LinterState where
  store : List (String × List Diagnostic)
  inflight : List LintProc
  errors : List (List Char)
  disposed : Bool
  nextPid : Nat
deriving DecidableEq, Repr

/-- How an `execa` invocation ends: normal completion with captured stdout
and stderr, a launch failure (executable not found, permission denied), or
the 30-second timeout.  `executeSlimLint` runs with `reject: false` and
catches launch errors, so the latter two still yield a result, with empty
stdout. -/
inductive ProcOutcome where
  | success (stdout stderr : List Char)
  | launchFailure
  | timeout
deriving DecidableEq, Repr

/-- The stdout that `executeSlimLint` hands back to `lint`. -/
def outcomeStdout : ProcOutcome → List Char
  | .success out _ => out
  | .launchFailure => []
  | .timeout => []

/-- `String.prototype.includes`. -/
def containsSub (hay needle : List Char) : Bool :=
  hay.tails.any (fun t => needle.isPrefixOf t)

/-- The `window.showErrorMessage` text produced by `executeSlimLint` when
the subprocess fails to launch. -/
def notFoundMessage : List Char :=
  "slim-lint not found. Please install slim-lint: gem install slim_lint".data

/-- The user-visible error notifications produced while obtaining a
subprocess output in `executeSlimLint`: stderr that looks like a real
error is surfaced; a launch failure is reported; a timeout resolves with
empty stderr and is not surfaced. -/
def outcomeErrors : ProcOutcome → List (List Char)
  | .success _ stderr =>
    if stderr.isEmpty then []
    else if containsSub stderr "error".data || containsSub stderr "not found".data then
      ["slim-lint error: ".data ++ stderr]
    else []
  | .launchFailure => [notFoundMessage]
  | .timeout => []

/-- `shouldLintDocument(document)`: the language check, and nothing else. -/
def shouldLintDocument (doc : TextDocument) : Bool :=
  doc.languageId = "slim"

/-- `isFileDocument(document)`. -/
def isFileDocument (doc : TextDocument) : Bool :=
  doc.uriScheme = "file"

namespace Linter

/-- `run(document)` together with the synchronous prefix of `lint` up to
dispatching the subprocess: the disposal and language checks, then the
text snapshot and the spawn (the configuration is assumed valid; `run`
performs no file-scheme check, and `lint` neither consults nor terminates
any previously in-flight subprocess). -/
def run (st : LinterState) (doc : TextDocument) : LinterState :=
  if st.disposed then st
  else if !shouldLintDocument doc then st
  else { st with
    inflight := st.inflight ++ [⟨st.nextPid, doc.uriPath, getText doc⟩]
    nextPid := st.nextPid + 1 }

/-- `clear(document)`: delete the entry, but only for file documents and
only while not disposed. -/
def clear (st : LinterState) (doc : TextDocument) : LinterState :=
  if st.disposed then st
  else if isFileDocument doc then
    { st with store := storeDelete doc.uriPath st.store }
  else st

/-- `updateDiagnostics(document, diagnostics)`: delete-then-set. -/
def updateDiagnostics (st : LinterState) (doc : TextDocument)
    (diagnostics : List Diagnostic) : LinterState :=
  if st.disposed then st
  else { st with
    store := storeSet doc.uriPath diagnostics (storeDelete doc.uriPath st.store) }

/-- The tail of `lint` after the subprocess output has been obtained:
re-check disposal, compare the document current text against the
snapshot, and on a match parse the output and replace the stored
diagnostics; on a mismatch return with no state change and no
notification. -/
def commitResults (st : LinterState) (snapshot stdout : List Char)
    (doc : TextDocument) : LinterState :=
  if st.disposed then st
  else if snapshot ≠ getText doc then st
  else updateDiagnostics st doc (parseOutput stdout doc)

/-- Completion of an in-flight subprocess: the notifications produced
while awaiting it, its removal from the set of running processes, and the
commit phase.  `doc` is the document as it reads at completion time. -/
def completeLint (st : LinterState) (p : LintProc) (outcome : ProcOutcome)
    (doc : TextDocument) : LinterState :=
  commitResults
    { st with
      inflight := st.inflight.filter (fun q => q.pid != p.pid)
      errors := st.errors ++ outcomeErrors outcome }
    p.snapshot (outcomeStdout outcome) doc

/-- One complete lint cycle on a document whose text does not change while
the subprocess runs: `run` followed by completion of the subprocess it
dispatched, with the given tool output and empty stderr. -/
def lintCycle (st : LinterState) (doc : TextDocument) (out : List Char) :
    LinterState :=
  completeLint (run st doc) ⟨st.nextPid, doc.uriPath, getText doc⟩
    (ProcOutcome.success out []) doc

end Linter

end SlimLint

namespace SlimLint

theorem takeWhile_dropWhile_length (p : Char → Bool) (t : List Char) :
    (t.takeWhile p).length + (t.dropWhile p).length = t.length := by
  rw [← List.length_append, List.takeWhile_append_dropWhile]

/-- A successful match of the pattern tail consumes at least one character. -/
theorem afterColon_length {s r : List Char} {m : LintMatch}
    (h : afterColon s = some (m, r)) : r.length < s.length := by
  have hs := takeWhile_dropWhile_length Char.isDigit s
  unfold afterColon at h
  split at h <;> try exact Option.noConfusion h
  split at h <;> try exact Option.noConfusion h
  rename_i d ds sev r4 heq1 heq2 hsev
  have h4 := takeWhile_dropWhile_length isWordChar r4
  split at h <;> try exact Option.noConfusion h
  rename_i w ws r6 heq3 heq4
  have h6 := takeWhile_dropWhile_length isDotChar r6
  split at h <;> try exact Option.noConfusion h
  cases h
  simp_all
  omega

theorem lazyRest_length {s r : List Char} {m : LintMatch}
    (h : lazyRest s = some (m, r)) : r.length < s.length := by
  induction s with
  | nil => exact Option.noConfusion h
  | cons c rest ih =>
    unfold lazyRest at h
    split at h
    . rename_i res heq
      cases h
      split at heq
      . exact Nat.lt_succ_of_lt (afterColon_length heq)
      . exact Option.noConfusion heq
    . split at h
      . exact Nat.lt_succ_of_lt (ih h)
      . exact Option.noConfusion h

theorem matchStartingAt_length {s r : List Char} {m : LintMatch}
    (h : matchStartingAt s = some (m, r)) : r.length < s.length := by
  cases s with
  | nil => exact Option.noConfusion h
  | cons c rest =>
    simp only [matchStartingAt] at h
    split at h
    . exact Nat.lt_succ_of_lt (lazyRest_length h)
    . exact Option.noConfusion h

theorem findMatch_length {s r : List Char} {m : LintMatch}
    (h : findMatch s = some (m, r)) : r.length < s.length := by
  induction s with
  | nil => exact Option.noConfusion h
  | cons c rest ih =>
    unfold findMatch at h
    split at h
    . rename_i res heq
      cases h
      exact matchStartingAt_length heq
    . exact Nat.lt_succ_of_lt (ih h)

/-- A successful `exec` strictly advances `lastIndex`, staying in bounds. -/
theorem execFrom_bounds {s : List Char} {i j : Nat} {m : LintMatch}
    (h : execFrom s i = some (m, j)) : i < j ∧ j ≤ s.length := by
  unfold execFrom at h
  split at h
  . exact Option.noConfusion h
  . rename_i m' rest heq
    cases h
    have hlt := findMatch_length heq
    have hdrop : (s.drop i).length = s.length - i := by simp
    rw [hdrop] at hlt
    omega

/-- With enough fuel, the match loop always terminates through an
unsuccessful `exec`, which leaves `lastIndex = 0`. -/
theorem parseLoopAux_snd {s : List Char} :
    ∀ fuel i, s.length + 1 - i ≤ fuel → 1 ≤ fuel → (parseLoopAux fuel s i).2 = 0 := by
  intro fuel
  induction fuel with
  | zero => intro i h h1; omega
  | succ n ih =>
    intro i h _
    unfold parseLoopAux
    cases heq : execFrom s i with
    | none => simp
    | some mj =>
      obtain ⟨m, j⟩ := mj
      have hb := execFrom_bounds heq
      simp only [heq]
      exact ih j (by omega) (by omega)

/-- Every full run of the `parseOutput` match loop leaves the shared
shared `lastIndex` at `0`, whatever it started from. -/
theorem parseMatchesFrom_snd (s : List Char) (i : Nat) :
    (parseMatchesFrom s i).2 = 0 :=
  parseLoopAux_snd (s.length + 1) i (by omega) (by omega)

theorem storeGet_storeSet_self (u : String) (v : List Diagnostic)
    (s : List (String × List Diagnostic)) : storeGet (storeSet u v s) u = some v := by
  simp [storeSet, storeGet]

theorem storeGet_storeDelete_self (u : String) (s : List (String × List Diagnostic)) :
    storeGet (storeDelete u s) u = none := by
  induction s with
  | nil => rfl
  | cons p rest ih =>
    obtain ⟨k, v⟩ := p
    by_cases hk : k = u
    . simp [storeDelete, hk, ih]
    . simp [storeDelete, storeGet, hk, ih]

theorem storeGet_storeDelete_ne (u u' : String) (s : List (String × List Diagnostic))
    (h : u' ≠ u) : storeGet (storeDelete u s) u' = storeGet s u' := by
  induction s with
  | nil => rfl
  | cons p rest ih =>
    obtain ⟨k, v⟩ := p
    by_cases hk : k = u
    . subst hk
      have hku : ¬(k = u') := fun hh => h hh.symm
      simp [storeDelete, storeGet, hku, ih]
    . simp [storeDelete, storeGet, hk, ih]

end SlimLint

namespace SlimLint

/-- C1: every match the parser extracts from the tool output whose
one-based line number N satisfies 1 ≤ N and N - 1 < document.lineCount
produces a Diagnostic in parseOutput with zero-based line N - 1, severity
Warning exactly when the bracketed character is W and Error otherwise, and
message equal to ruleName ++ ": " ++ message. -/
theorem C1_output_parsing_correct (output : List Char) (doc : TextDocument)
    (m : LintMatch) (hm : m ∈ parseMatches output)
    (h1 : 1 ≤ digitsToNat m.lineStr)
    (h2 : digitsToNat m.lineStr - 1 < doc.lineCount) :
    ∃ d, createDiagnostic m doc = some d ∧ d ∈ parseOutput output doc ∧
      d.range.start.line = (digitsToNat m.lineStr : Int) - 1 ∧
      (m.sev = 'W' → d.severity = DiagnosticSeverity.Warning) ∧
      (m.sev ≠ 'W' → d.severity = DiagnosticSeverity.Error) ∧
      d.message = m.ruleName ++ (':' :: ' ' :: m.message) := by
  have hmax : lineOf m = (digitsToNat m.lineStr : Int) - 1 := by
    unfold lineOf
    apply max_eq_left
    omega
  have hcond : ¬ ((doc.lineCount : Int) ≤ lineOf m) := by
    rw [hmax]
    omega
  have hc : createDiagnostic m doc = some
      { range := diagRange doc (lineOf m)
        message := m.ruleName ++ (':' :: ' ' :: m.message)
        severity := if m.sev = 'W' then DiagnosticSeverity.Warning
                    else DiagnosticSeverity.Error } := by
    unfold createDiagnostic
    rw [if_neg hcond]
  refine ⟨_, hc, ?_, ?_, ?_, ?_, rfl⟩
  . unfold parseOutput
    exact List.mem_filterMap.mpr ⟨m, hm, hc⟩
  . simp [diagRange, hmax]
  . intro hw
    simp [hw]
  . intro hw
    simp [hw]

def c1out : List Char := "f.slim:2 [E] RuleName: bad thing".data

def c1doc : TextDocument :=
  ⟨"slim", "file", "f.slim", ["doctype html".data, "  h1 x".data]⟩

def c1m : LintMatch := ⟨['2'], 'E', "RuleName".data, "bad thing".data⟩

/-- C1 witness: a concrete output line, document, and match. -/
theorem C1_output_parsing_correct_witness :
    ∃ d, createDiagnostic c1m c1doc = some d ∧ d ∈ parseOutput c1out c1doc ∧
      d.range.start.line = (digitsToNat c1m.lineStr : Int) - 1 ∧
      (c1m.sev = 'W' → d.severity = DiagnosticSeverity.Warning) ∧
      (c1m.sev ≠ 'W' → d.severity = DiagnosticSeverity.Error) ∧
      d.message = c1m.ruleName ++ (':' :: ' ' :: c1m.message) :=
  C1_output_parsing_correct c1out c1doc c1m (by decide) (by decide) (by decide)

/-- C6: a parsed match whose clamped zero-based line is at least
document.lineCount produces no Diagnostic, while every other match of the
same output whose diagnostic is produced still appears in parseOutput. -/
theorem C6_out_of_range_discard (output : List Char) (doc : TextDocument)
    (m : LintMatch) (hm : m ∈ parseMatches output)
    (h : (doc.lineCount : Int) ≤ lineOf m) :
    createDiagnostic m doc = none ∧
    ∀ m' d, m' ∈ parseMatches output → createDiagnostic m' doc = some d →
      d ∈ parseOutput output doc := by
  constructor
  . unfold createDiagnostic
    rw [if_pos h]
  . intro m' d hm' hd
    unfold parseOutput
    exact List.mem_filterMap.mpr ⟨m', hm', hd⟩

def c6out : List Char := "f.slim:99 [W] Alpha: far\nf.slim:1 [E] Beta: near".data

def c6doc : TextDocument := ⟨"slim", "file", "f.slim", ["h1 x".data]⟩

def c6far : LintMatch := ⟨['9', '9'], 'W', "Alpha".data, "far".data⟩

def c6near : LintMatch := ⟨['1'], 'E', "Beta".data, "near".data⟩

def c6d : Diagnostic := ⟨⟨⟨0, 0⟩, ⟨0, 4⟩⟩, "Beta: near".data, DiagnosticSeverity.Error⟩

/-- C6 witness: an output with one out-of-range and one in-range match on
a one-line document; the former yields nothing, the latter survives. -/
theorem C6_out_of_range_discard_witness :
    createDiagnostic c6far c6doc = none ∧ c6d ∈ parseOutput c6out c6doc :=
  ⟨(C6_out_of_range_discard c6out c6doc c6far (by decide) (by decide)).1,
   (C6_out_of_range_discard c6out c6doc c6far (by decide) (by decide)).2
     c6near c6d (by decide) (by decide)⟩

/-- C8: every diagnostic parseOutput produces takes its line from some
match of the output as max(parsedLineNumber - 1, 0); the line is never
negative, and a parsed line number of 0 yields line 0. -/
theorem C8_line_clamping (output : List Char) (doc : TextDocument)
    (d : Diagnostic) (hd : d ∈ parseOutput output doc) :
    0 ≤ d.range.start.line ∧
    ∃ m, m ∈ parseMatches output ∧
      d.range.start.line = max ((digitsToNat m.lineStr : Int) - 1) 0 ∧
      (digitsToNat m.lineStr = 0 → d.range.start.line = 0) := by
  unfold parseOutput at hd
  obtain ⟨m, hm, hc⟩ := List.mem_filterMap.mp hd
  unfold createDiagnostic at hc
  split at hc
  . exact Option.noConfusion hc
  . cases hc
    refine ⟨?_, m, hm, ?_, ?_⟩
    . simp [diagRange, lineOf]
    . simp [diagRange, lineOf]
    . intro h0
      simp [diagRange, lineOf, h0]

def c8out : List Char := "f.slim:0 [W] Zero: clamped".data

def c8doc : TextDocument := ⟨"slim", "file", "f.slim", ["h1 x".data]⟩

def c8d : Diagnostic := ⟨⟨⟨0, 0⟩, ⟨0, 4⟩⟩, "Zero: clamped".data, DiagnosticSeverity.Warning⟩

/-- C8 witness: a reported line number of 0 produces line 0. -/
theorem C8_line_clamping_witness :
    0 ≤ c8d.range.start.line ∧
    ∃ m, m ∈ parseMatches c8out ∧
      c8d.range.start.line = max ((digitsToNat m.lineStr : Int) - 1) 0 ∧
      (digitsToNat m.lineStr = 0 → c8d.range.start.line = 0) :=
  C8_line_clamping c8out c8doc c8d (by decide)

/-- C10: parsing is deterministic across calls despite the shared
global-flag regex: every full parse leaves lastIndex at 0, so a second
invocation of the parser starting from the state the first left behind
returns the same match list and the same diagnostics. -/
theorem C10_parser_deterministic (output : List Char) (doc : TextDocument) :
    (parseMatchesFrom output 0).2 = 0 ∧
    parseMatchesFrom output ((parseMatchesFrom output 0).2) =
      parseMatchesFrom output 0 ∧
    (parseMatchesFrom output ((parseMatchesFrom output 0).2)).1.filterMap
      (fun m => createDiagnostic m doc) = parseOutput output doc := by
  refine ⟨parseMatchesFrom_snd output 0, ?_, ?_⟩
  . rw [parseMatchesFrom_snd output 0]
  . rw [parseMatchesFrom_snd output 0]
    rfl

end SlimLint

namespace SlimLint

/-- The initial state of a freshly constructed Linter. -/
def st0 : LinterState := ⟨[], [], [], false, 0⟩

/-- A sample stored diagnostic. -/
def sampleDiag : Diagnostic :=
  ⟨⟨⟨0, 0⟩, ⟨0, 4⟩⟩, "Alpha: old".data, DiagnosticSeverity.Warning⟩

def c2doc : TextDocument := ⟨"slim", "file", "f.slim", ["h1 x".data]⟩

def c2out1 : List Char := "f.slim:1 [W] Alpha: old".data

def c2out2 : List Char := "f.slim:1 [W] Beta: new".data

/-- C2 counterexample: starting a second lint for the same document leaves
the first subprocess in flight (nothing is terminated), and after the
newer lint commits, completion of the superseded one still commits its
own results over the newer ones. -/
theorem C2_counterexample :
    (⟨0, "f.slim", getText c2doc⟩ : LintProc) ∈
      (Linter.run (Linter.run st0 c2doc) c2doc).inflight ∧
    storeGet (Linter.completeLint
        (Linter.completeLint (Linter.run (Linter.run st0 c2doc) c2doc)
          ⟨1, "f.slim", getText c2doc⟩ (ProcOutcome.success c2out2 []) c2doc)
        ⟨0, "f.slim", getText c2doc⟩ (ProcOutcome.success c2out1 []) c2doc).store
      "f.slim" = some (parseOutput c2out1 c2doc) ∧
    parseOutput c2out1 c2doc ≠ parseOutput c2out2 c2doc := by
  decide

/-- C2 amended: starting a new lint for a document terminates nothing:
every previously in-flight subprocess remains in flight alongside the
newly dispatched one, so several subprocesses for the same document can be
current simultaneously; the only guard against a superseded lint
committing is the text-snapshot comparison at commit time. -/
theorem C2_amended (st : LinterState) (doc : TextDocument)
    (hd : st.disposed = false) (hl : doc.languageId = "slim") :
    (Linter.run st doc).inflight =
      st.inflight ++ [⟨st.nextPid, doc.uriPath, getText doc⟩] := by
  unfold Linter.run
  simp [hd, shouldLintDocument, hl]

/-- C2 amended witness: a concrete run on a fresh state. -/
theorem C2_amended_witness :
    (Linter.run st0 c2doc).inflight =
      st0.inflight ++ [⟨st0.nextPid, c2doc.uriPath, getText c2doc⟩] :=
  C2_amended st0 c2doc rfl rfl

def c3doc : TextDocument := ⟨"slim", "file", "f.slim", ["h1 x".data]⟩

def c3st : LinterState :=
  ⟨[("f.slim", [sampleDiag])], [⟨0, "f.slim", getText c3doc⟩], [], false, 1⟩

/-- C3 counterexample: a lint cycle whose subprocess fails to launch does
not leave the diagnostic store entry unchanged: the cycle proceeds with
empty stdout and replaces the stored diagnostics with the empty list. -/
theorem C3_counterexample :
    storeGet c3st.store "f.slim" = some [sampleDiag] ∧
    storeGet (Linter.completeLint c3st ⟨0, "f.slim", getText c3doc⟩
        ProcOutcome.launchFailure c3doc).store "f.slim" = some [] ∧
    ([] : List Diagnostic) ≠ [sampleDiag] := by
  decide

/-- C3 amended: on a launch failure or timeout the cycle continues with
empty stdout, so when the document text is unchanged the diagnostic store
entry for the document is replaced with the empty list — previous
diagnostics are cleared, not preserved. -/
theorem C3_amended (st : LinterState) (p : LintProc) (doc : TextDocument)
    (outcome : ProcOutcome)
    (ho : outcome = ProcOutcome.launchFailure ∨ outcome = ProcOutcome.timeout)
    (hd : st.disposed = false) (hs : p.snapshot = getText doc) :
    storeGet (Linter.completeLint st p outcome doc).store doc.uriPath =
      some [] := by
  have hstdout : outcomeStdout outcome = [] := by
    rcases ho with h | h <;> simp [h, outcomeStdout]
  unfold Linter.completeLint Linter.commitResults Linter.updateDiagnostics
  have hparse : parseOutput (outcomeStdout outcome) doc = [] := by
    rw [hstdout]
    rfl
  simp [hd, hs, hparse, storeGet_storeSet_self]

/-- C3 amended witness: the launch-failure completion from the
counterexample state. -/
theorem C3_amended_witness :
    storeGet (Linter.completeLint c3st ⟨0, "f.slim", getText c3doc⟩
        ProcOutcome.launchFailure c3doc).store c3doc.uriPath = some [] :=
  C3_amended c3st ⟨0, "f.slim", getText c3doc⟩ c3doc ProcOutcome.launchFailure
    (Or.inl rfl) rfl rfl

def c4doc : TextDocument :=
  ⟨"slim", "untitled", "untitled:Untitled-1", ["h1 x".data]⟩

/-- C4 counterexample: on a document with the slim language id but a
non-file (untitled) URI scheme, run is not a no-op: it dispatches a
subprocess. -/
theorem C4_counterexample :
    isFileDocument c4doc = false ∧
    shouldLintDocument c4doc = true ∧
    (Linter.run st0 c4doc).inflight =
      [⟨0, "untitled:Untitled-1", getText c4doc⟩] ∧
    Linter.run st0 c4doc ≠ st0 := by
  decide

/-- C4 amended: run is a no-op unless the language id of the document is slim;
the file-scheme check is not applied by run, so for a slim document on a
live linter a subprocess is dispatched whatever the URI scheme. -/
theorem C4_amended (st : LinterState) (doc : TextDocument) :
    (doc.languageId ≠ "slim" → Linter.run st doc = st) ∧
    (doc.languageId = "slim" → st.disposed = false →
      (Linter.run st doc).inflight =
        st.inflight ++ [⟨st.nextPid, doc.uriPath, getText doc⟩]) := by
  constructor
  . intro h
    unfold Linter.run
    split
    . rfl
    . rw [if_pos]
      simp [shouldLintDocument, h]
  . intro hl hd
    unfold Linter.run
    simp [hd, shouldLintDocument, hl]

def c4plainDoc : TextDocument := ⟨"plaintext", "file", "notes.txt", ["hello".data]⟩

/-- C4 amended witness: a non-slim document is skipped; an untitled slim
document is linted anyway. -/
theorem C4_amended_witness :
    Linter.run st0 c4plainDoc = st0 ∧
    (Linter.run st0 c4doc).inflight =
      st0.inflight ++ [⟨st0.nextPid, c4doc.uriPath, getText c4doc⟩] :=
  ⟨(C4_amended st0 c4plainDoc).1 (by decide), (C4_amended st0 c4doc).2 rfl rfl⟩

/-- C5: if the text of the document at the moment the subprocess output has
been obtained differs from the snapshot taken before dispatch, the commit
phase of that cycle returns the linter state — diagnostic store, surfaced
errors, everything — entirely unchanged. -/
theorem C5_race_discard (st : LinterState) (snapshot stdout : List Char)
    (doc : TextDocument) (h : snapshot ≠ getText doc) :
    Linter.commitResults st snapshot stdout doc = st := by
  unfold Linter.commitResults
  split
  . rfl
  . rfl

def c5doc : TextDocument := ⟨"slim", "file", "f.slim", ["h1 x".data]⟩

/-- C5 witness: a stale snapshot leads to a discarded commit. -/
theorem C5_race_discard_witness :
    Linter.commitResults st0 "stale text".data "f.slim:1 [W] A: b".data c5doc
      = st0 :=
  C5_race_discard st0 "stale text".data "f.slim:1 [W] A: b".data c5doc (by decide)

/-- C7: two successive complete lint cycles with identical tool output on
an unchanged live slim document leave exactly the entry a single cycle
leaves: the parsed diagnostics, replaced wholesale, never accumulated. -/
theorem C7_idempotent_replace (st : LinterState) (doc : TextDocument)
    (out : List Char) (hd : st.disposed = false) (hl : doc.languageId = "slim") :
    storeGet (Linter.lintCycle (Linter.lintCycle st doc out) doc out).store
        doc.uriPath =
      storeGet (Linter.lintCycle st doc out).store doc.uriPath ∧
    storeGet (Linter.lintCycle st doc out).store doc.uriPath =
      some (parseOutput out doc) := by
  have key : ∀ s : LinterState, s.disposed = false →
      storeGet (Linter.lintCycle s doc out).store doc.uriPath =
        some (parseOutput out doc) ∧
      (Linter.lintCycle s doc out).disposed = false := by
    intro s hs
    unfold Linter.lintCycle Linter.run Linter.completeLint Linter.commitResults
      Linter.updateDiagnostics
    simp [hs, shouldLintDocument, hl, outcomeErrors, outcomeStdout,
      storeGet_storeSet_self]
  refine ⟨?_, (key st hd).1⟩
  rw [(key _ (key st hd).2).1, (key st hd).1]

def c7doc : TextDocument := ⟨"slim", "file", "f.slim", ["h1 too long".data]⟩

def c7out : List Char := "f.slim:1 [W] LineLength: too long".data

/-- C7 witness: two concrete cycles on a fresh state. -/
theorem C7_idempotent_replace_witness :
    storeGet (Linter.lintCycle (Linter.lintCycle st0 c7doc c7out) c7doc
        c7out).store c7doc.uriPath =
      storeGet (Linter.lintCycle st0 c7doc c7out).store c7doc.uriPath ∧
    storeGet (Linter.lintCycle st0 c7doc c7out).store c7doc.uriPath =
      some (parseOutput c7out c7doc) :=
  C7_idempotent_replace st0 c7doc c7out rfl rfl

/-- C9: clear is a no-op for non-file documents — it removes no entry, so
every stored entry remains; for a file document on a live linter it
removes exactly the entry of that document and no other. -/
theorem C9_clear_file_only (st : LinterState) (doc : TextDocument) (u : String) :
    (doc.uriScheme ≠ "file" → Linter.clear st doc = st) ∧
    (doc.uriScheme = "file" → st.disposed = false →
      storeGet (Linter.clear st doc).store u =
        if u = doc.uriPath then none else storeGet st.store u) := by
  constructor
  . intro h
    unfold Linter.clear
    split
    . rfl
    . split
      . rename_i hfile
        simp [isFileDocument] at hfile
        exact absurd hfile h
      . rfl
  . intro hf hd
    unfold Linter.clear
    simp [hd, isFileDocument, hf]
    split
    . rename_i hu
      subst hu
      exact storeGet_storeDelete_self _ _
    . rename_i hu
      exact storeGet_storeDelete_ne _ _ _ hu

def c9doc : TextDocument := ⟨"slim", "file", "f.slim", ["h1 x".data]⟩

def c9docUntitled : TextDocument := ⟨"slim", "untitled", "u.slim", ["h1 x".data]⟩

def c9st : LinterState :=
  ⟨[("f.slim", [sampleDiag]), ("g.slim", [sampleDiag])], [], [], false, 0⟩

/-- C9 witness: clearing an untitled document changes nothing; clearing a
file document removes its entry and leaves the other entry intact. -/
theorem C9_clear_file_only_witness :
    Linter.clear c9st c9docUntitled = c9st ∧
    storeGet (Linter.clear c9st c9doc).store "f.slim" = none ∧
    storeGet (Linter.clear c9st c9doc).store "g.slim" = some [sampleDiag] := by
  refine ⟨(C9_clear_file_only c9st c9docUntitled "f.slim").1 (by decide), ?_, ?_⟩
  . have h := (C9_clear_file_only c9st c9doc "f.slim").2 rfl rfl
    simpa using h
  . have h := (C9_clear_file_only c9st c9doc "g.slim").2 rfl rfl
    rw [h]
    decide

end SlimLint
